import Mathlib

/-!
Shallow embedding of the gateway supervisor core:
the config-migration engine (config-migrations.ts) and the
port/token/tail-buffer/shutdown logic of the Electron main process.
-/

/-- JSON-like config values (JSON5-parsed documents). Numbers are modelled
as integers, which covers every value the migrations inspect or build. -/
inductive JsonValue where
  | str (s : String)
  | num (n : Int)
  | bool (b : Bool)
  | null
  | arr (elems : List JsonValue)
  | obj (fields : List (String × JsonValue))
deriving Repr

/-- A JS object: insertion-ordered fields with unique keys. -/
abbrev Obj := List (String × JsonValue)

/-- Property read on an object. -/
def getKey (o : Obj) (k : String) : Option JsonValue :=
  (o.find? (fun p => p.1 = k)).map (fun p => p.2)

/-- JS assignment `o[k] = v`: update in place if the key exists, else append. -/
def setKey (o : Obj) (k : String) (v : JsonValue) : Obj :=
  if o.any (fun p => p.1 = k) then
    o.map (fun p => if p.1 = k then (k, v) else p)
  else
    o ++ [(k, v)]

/-- JS `String.prototype.trim`: strip whitespace from both ends
(list-based so it evaluates in the kernel). -/
def jsTrim (s : String) : String :=
  String.mk (((s.data.dropWhile Char.isWhitespace).reverse.dropWhile
    Char.isWhitespace).reverse)

/-- `isPlainObject`: object, not null, not an array. -/
def isPlainObject : JsonValue → Bool
  | .obj _ => true
  | _ => false

/-- The object `ensureObject(root, key)` returns (the alias's current value). -/
def ensureObjectGet (root : Obj) (k : String) : Obj :=
  match getKey root k with
  | some (.obj g) => g
  | _ => []

/-- The mutation `ensureObject` performs on `root`: insert `{}` at `k`
unless a plain object is already there. -/
def ensureObjectSet (root : Obj) (k : String) : Obj :=
  match getKey root k with
  | some (.obj _) => root
  | _ => setKey root k (.obj [])

mutual

/-- JS `String(v)` coercion for JSON values. -/
def jsToString : JsonValue → String
  | .str s => s
  | .num n => toString n
  | .bool b => if b then "true" else "false"
  | .null => "null"
  | .arr vs => String.intercalate "," (jsArrElems vs)
  | .obj _ => "[object Object]"

/-- Array elements under `Array.prototype.toString`: null renders empty. -/
def jsArrElems : List JsonValue → List String
  | [] => []
  | v :: rest =>
    (match v with
     | .null => ""
     | w => jsToString w) :: jsArrElems rest

end

/-- Migration v1 `apply`: returns the document after all in-place mutations,
plus the reported `changed` flag. -/
def migration1Apply (cfg0 : Obj) : Obj × Bool :=
  let gateway := ensureObjectGet cfg0 "gateway"
  let cfg := ensureObjectSet cfg0 "gateway"
  let mode := match getKey gateway "mode" with
    | some (.str s) => jsTrim s
    | _ => ""
  let bind := match getKey gateway "bind" with
    | some (.str s) => jsTrim s
    | _ => ""
  if mode ≠ "local" ∨ bind ≠ "loopback" then (cfg, false)
  else
    let controlUi := ensureObjectGet gateway "controlUi"
    let gateway1 := ensureObjectSet gateway "controlUi"
    let allowedOrigins : List String :=
      match getKey controlUi "allowedOrigins" with
      | some (.arr vs) =>
        ((vs.map (fun v => jsTrim (jsToString v))).filter (fun s => !s.isEmpty))
      | _ => []
    let step1 : Obj × Bool :=
      if allowedOrigins.contains "null" then (controlUi, false)
      else
        (setKey controlUi "allowedOrigins"
          (.arr ((allowedOrigins ++ ["null"]).map .str)), true)
    let controlUi1 := step1.1
    let step2 : Obj × Bool :=
      match getKey controlUi1 "dangerouslyDisableDeviceAuth" with
      | some (.bool true) => (controlUi1, false)
      | _ => (setKey controlUi1 "dangerouslyDisableDeviceAuth" (.bool true), true)
    let controlUi2 := step2.1
    let gateway2 := setKey gateway1 "controlUi" (.obj controlUi2)
    (setKey cfg "gateway" (.obj gateway2), step1.2 || step2.2)

/-- Migration v2 `apply`: set `browser.defaultProfile` to `"openclaw"`. -/
def migration2Apply (cfg0 : Obj) : Obj × Bool :=
  let browser := ensureObjectGet cfg0 "browser"
  let cfg := ensureObjectSet cfg0 "browser"
  match getKey browser "defaultProfile" with
  | some (.str _) => (cfg, false)
  | _ =>
    (setKey cfg "browser"
      (.obj (setKey browser "defaultProfile" (.str "openclaw"))), true)

/-- A registered migration. `apply` yields the document after the in-place
mutations performed, and `some changed` on normal return or `none` when the
migration raises (the document component then holds the partial mutation
present in memory at the moment of the raise). -/
structure ConfigMigration where
  version : Int
  description : String
  apply : Obj → Obj × Option Bool

/-- Registered migration v1; its `apply` always returns normally. -/
def desktopMigration1 : ConfigMigration :=
  { version := 1
    description := "Ensure null origin and device-auth bypass for Electron renderer"
    apply := fun cfg => ((migration1Apply cfg).1, some (migration1Apply cfg).2) }

/-- Registered migration v2; its `apply` always returns normally. -/
def desktopMigration2 : ConfigMigration :=
  { version := 2
    description := "Set browser.defaultProfile to openclaw"
    apply := fun cfg => ((migration2Apply cfg).1, some (migration2Apply cfg).2) }

/-- The registered desktop migrations (versions 1 and 2). -/
def DESKTOP_CONFIG_MIGRATIONS : List ConfigMigration :=
  [desktopMigration1, desktopMigration2]

/-- Inputs `runConfigMigrations` reads from the filesystem: whether the
config file exists, the marker version `readStateVersion` produced, and the
JSON5 parse of the config file (`none` when parsing threw or the parse is
not a plain object). -/
structure MigrationEnv where
  configExists : Bool
  markerVersion : Int
  parsedConfig : Option Obj

/-- Filesystem writes a run performs: the rewritten config document, if any,
and the rewritten `{configVersion}` marker, if any. -/
structure RunResult where
  configWrite : Option Obj
  markerWrite : Option Int
deriving Repr

/-- The migration loop of `runConfigMigrations` (lines 117-130): threads the
in-memory document, the `configChanged` flag and `appliedUpTo`; a raising
migration breaks, leaving its partial mutation in the document. -/
def applyLoop : List ConfigMigration → Obj → Bool → Int → Obj × Bool × Int
  | [], cfg, changed, upTo => (cfg, changed, upTo)
  | m :: rest, cfg, changed, upTo =>
    match m.apply cfg with
    | (cfg1, some b) => applyLoop rest cfg1 (changed || b) m.version
    | (cfg1, none) => (cfg1, changed, upTo)

/-- The pending set: registered migrations with version above the marker,
in registration order. -/
def pendingOf (migrations : List ConfigMigration) (currentVersion : Int) :
    List ConfigMigration :=
  migrations.filter (fun m => currentVersion < m.version)

/-- `runConfigMigrations`, generic in the migration registry. -/
def runConfigMigrationsWith (migrations : List ConfigMigration)
    (env : MigrationEnv) : RunResult :=
  if !env.configExists then ⟨none, none⟩
  else
    let currentVersion := env.markerVersion
    let pending := pendingOf migrations currentVersion
    if pending.isEmpty then ⟨none, none⟩
    else
      match env.parsedConfig with
      | none => ⟨none, none⟩
      | some cfg =>
        let r := applyLoop pending cfg false currentVersion
        ⟨if r.2.1 then some r.1 else none,
         if currentVersion < r.2.2 then some r.2.2 else none⟩

/-- `runConfigMigrations` over the registered desktop migrations. -/
def runConfigMigrations (env : MigrationEnv) : RunResult :=
  runConfigMigrationsWith DESKTOP_CONFIG_MIGRATIONS env

/-- The next run's inputs after applying a run's writes: a written document
parses back to itself, a written marker is the next marker read. -/
def threadEnv (env : MigrationEnv) (r : RunResult) : MigrationEnv :=
  { configExists := env.configExists
    markerVersion := r.markerWrite.getD env.markerVersion
    parsedConfig :=
      match r.configWrite with
      | some d => some d
      | none => env.parsedConfig }

/-! ## Tail buffer (`createTailBuffer`) -/

/-- `push(chunk)`: append, then keep only the last `maxChars` characters
when the budget is exceeded. -/
def tailPush (maxChars : Nat) (buf chunk : List Char) : List Char :=
  let b := buf ++ chunk
  if maxChars < b.length then b.drop (b.length - maxChars) else b

/-- `read()`: the current buffer contents. -/
def tailRead (buf : List Char) : List Char := buf

/-- Buffer contents after pushing `chunks` in order into a fresh buffer. -/
def tailRun (maxChars : Nat) (chunks : List (List Char)) : List Char :=
  chunks.foldl (tailPush maxChars) []

/-! ## Token provisioning -/

/-- What the filesystem holds at the config path. -/
inductive ConfigFileState where
  | absent
  | unparsable
  | parsed (v : JsonValue)
deriving Repr

/-- JS property access `v.k` (with `?.` short-circuiting on null): only a
plain object yields a value; strings, numbers, arrays, null give undefined. -/
def jsGet : JsonValue → String → Option JsonValue
  | .obj o, k => getKey o k
  | _, _ => none

/-- `readGatewayTokenFromConfig`: reuse `gateway.auth.token` when it is a
non-blank string, trimmed; otherwise null. -/
def readGatewayTokenFromConfig : ConfigFileState → Option String
  | .absent => none
  | .unparsable => none
  | .parsed v =>
    match v with
    | .obj _ | .arr _ =>
      match (jsGet v "gateway").bind (fun g => (jsGet g "auth").bind
              (fun a => jsGet a "token")) with
      | some (.str s) => if 0 < (jsTrim s).length then some (jsTrim s) else none
      | _ => none
    | _ => none

/-- The URL-safe base64 alphabet. -/
def b64Char (n : Nat) : Char :=
  ("ABCDEFGHIJKLMNOPQRSTUVWXYZabcdefghijklmnopqrstuvwxyz0123456789-_".toList).getD n 'A'

/-- Node's `Buffer.toString("base64url")`: URL-safe alphabet, no padding. -/
def base64urlEncode : List Nat → List Char
  | [] => []
  | [b1] => [b64Char (b1 / 4), b64Char (b1 % 4 * 16)]
  | [b1, b2] =>
    [b64Char (b1 / 4), b64Char (b1 % 4 * 16 + b2 / 16), b64Char (b2 % 16 * 4)]
  | b1 :: b2 :: b3 :: rest =>
    b64Char (b1 / 4) :: b64Char (b1 % 4 * 16 + b2 / 16) ::
      b64Char (b2 % 16 * 4 + b3 / 64) :: b64Char (b3 % 64) :: base64urlEncode rest

/-- Line 372: reuse the config token when present, else mint
`randomBytes(24).toString("base64url")` from the given entropy bytes. -/
def resolveToken (file : ConfigFileState) (entropy : List Nat) : String :=
  match readGatewayTokenFromConfig file with
  | some t => t
  | none => String.mk (base64urlEncode entropy)

/-- The minimal bootstrap config `ensureGatewayConfigFile` writes. -/
def minimalConfig (token : String) : JsonValue :=
  .obj [("gateway", .obj
    [("mode", .str "local"), ("bind", .str "loopback"),
     ("auth", .obj [("mode", .str "token"), ("token", .str token)])])]

/-- `ensureGatewayConfigFile`: write the minimal config only when no file
exists; an existing file (parsable or not) is left untouched. -/
def ensureGatewayConfigFile (file : ConfigFileState) (token : String) :
    ConfigFileState :=
  match file with
  | .absent => .parsed (minimalConfig token)
  | other => other

/-! ## Port allocation (`pickPort`) -/

/-- Observable actions of the port probes, in order. -/
inductive ProbeAction where
  | listen (port : Nat)
  | closeListener
deriving Repr, DecidableEq

/-- Outcomes the OS hands the two probes. -/
structure PortEnv where
  preferredFree : Bool
  port0Result : Option (Option Nat)
deriving Repr

/-- Failures of the fallback probe: the listen call errored, or
`server.address()` was null or a string. -/
inductive PickError where
  | listenRefused
  | addrUnresolved
deriving Repr, DecidableEq

/-- `pickPort(preferred)`: probe the preferred port on loopback, fall back
to an OS-assigned port; the result together with the probe actions taken. -/
def pickPort (preferred : Nat) (env : PortEnv) :
    Except PickError Nat × List ProbeAction :=
  if env.preferredFree then
    (.ok preferred, [.listen preferred, .closeListener])
  else
    match env.port0Result with
    | none => (.error .listenRefused, [.listen preferred, .listen 0])
    | some none =>
      (.error .addrUnresolved, [.listen preferred, .listen 0, .closeListener])
    | some (some p) =>
      (.ok p, [.listen preferred, .listen 0, .closeListener])

/-! ## Startup sequence of the `app.whenReady` handler -/

/-- Gateway states broadcast to the renderer. -/
inductive GatewayStateK where
  | starting (port : Nat) (logsDir token : String)
  | ready (port : Nat) (logsDir url token : String)
  | failed (port : Nat) (logsDir details token : String)
deriving Repr

/-- Outcomes of the environment during one startup run. -/
structure StartupEnv where
  pickPortOutcome : Except PickError Nat
  configFile : ConfigFileState
  entropy : List Nat
  logsDir : String
  openclawDir : String
  nodeBin : String
  portOpenedInTime : Bool
  stderrTailAtTimeout : String

/-- The `details` text of the readiness-failure state (lines 396-405). -/
def failureDetails (openclawDir nodeBin stderrTail logsDir : String) : String :=
  String.intercalate "\n"
    [ "Gateway did not open the port within 30s.", "",
      "openclawDir: " ++ openclawDir,
      "nodeBin: " ++ nodeBin,
      "stderr (tail):",
      (if (jsTrim stderrTail).isEmpty then "<empty>" else jsTrim stderrTail), "",
      "See logs in: " ++ logsDir ]

/-- The gateway-startup portion of the `app.whenReady().then(async ...)`
handler (lines 368-413): `Except.error` means the async handler's promise
rejected with no catch handler, so the error escaped the supervisor;
`Except.ok` carries the states broadcast, in order. -/
def whenReadyHandler (env : StartupEnv) :
    Except PickError (List GatewayStateK) :=
  match env.pickPortOutcome with
  | .error e => .error e
  | .ok port =>
    let token := resolveToken env.configFile env.entropy
    let url := "http://127.0.0.1:" ++ toString port ++ "/"
    if env.portOpenedInTime then
      .ok [.starting port env.logsDir token,
           .ready port env.logsDir url token]
    else
      .ok [.starting port env.logsDir token,
           .failed port env.logsDir
             (failureDetails env.openclawDir env.nodeBin
               env.stderrTailAtTimeout env.logsDir) token]

/-! ## Shutdown (`before-quit` handler) -/

/-- The supervised child at the moment `before-quit` fires. -/
structure ChildState where
  alive : Bool
  surviveSigterm : Bool
deriving Repr, DecidableEq

/-- What the handler did: the kill signals attempted, in order, and whether
the child process is still alive once the handler finishes. -/
structure KillTrace where
  signals : List String
  aliveAfter : Bool
deriving Repr, DecidableEq

/-- The `before-quit` handler. Node semantics: `child.kill(sig)` succeeds
iff the process is alive, and `child.killed` is set once a signal was
successfully sent (it does not mean the process exited). The handler sends
SIGTERM, waits 1.5s, then sends SIGKILL only when `child.killed` is false. -/
def beforeQuitHandler (g : Option ChildState) : KillTrace :=
  match g with
  | none => ⟨[], false⟩
  | some c =>
    let termSent := c.alive
    let killedFlag := termSent
    let aliveAfterGrace := c.alive && c.surviveSigterm
    if !killedFlag then
      ⟨["SIGTERM", "SIGKILL"], false⟩
    else
      ⟨["SIGTERM"], aliveAfterGrace⟩

/-- Run a sequence of migrations that all return normally, threading the
document and the accumulated `changed` flag; `none` when one raises. -/
def chainStep : List ConfigMigration → Obj × Bool → Option (Obj × Bool)
  | [], st => some st
  | m :: rest, (cfg, ch) =>
    match m.apply cfg with
    | (cfg1, some b) => chainStep rest (cfg1, ch || b)
    | (_, none) => none

/-- The version of the last migration in the list, or `cur` when empty. -/
def lastVer : List ConfigMigration → Int → Int
  | [], cur => cur
  | m :: rest, _ => lastVer rest m.version

/-- A startup run in which both port probes are refused: `pickPort`
rejects. -/
def portFailEnv : StartupEnv :=
  ⟨.error .listenRefused, .absent, [], "/logs", "/oc", "/node", false, ""⟩

/-- A migration that changes the document and returns normally. -/
def raiseMigA : ConfigMigration :=
  ⟨1, "set a", fun c => (setKey c "a" (.bool true), some true)⟩

/-- A migration that mutates the document and then raises. -/
def raiseMigB : ConfigMigration :=
  ⟨2, "set b then raise", fun c => (setKey c "b" (.bool true), none)⟩

/-- A run over an existing, empty-object config document at marker 0. -/
def raiseEnv : MigrationEnv := ⟨true, 0, some []⟩

/-- A migration whose `apply` reports no change. -/
def noopMig1 : ConfigMigration := ⟨1, "noop", fun c => (c, some false)⟩

/-- A migration that raises immediately. -/
def raiseFirstMig : ConfigMigration := ⟨1, "raise first", fun c => (c, none)⟩

/-! ## Characterisation of the migration loop -/

theorem applyLoop_of_chainStep (l : List ConfigMigration) :
    ∀ cfg ch cur cfg1 ch1, chainStep l (cfg, ch) = some (cfg1, ch1) →
      applyLoop l cfg ch cur = (cfg1, ch1, lastVer l cur) := by
  induction l with
  | nil =>
    intro cfg ch cur cfg1 ch1 h
    simp only [chainStep, Option.some.injEq, Prod.mk.injEq] at h
    simp [applyLoop, lastVer, h.1, h.2]
  | cons m rest ih =>
    intro cfg ch cur cfg1 ch1 h
    rcases hm : m.apply cfg with ⟨cfg2, ob⟩
    cases ob with
    | some b =>
      simp only [chainStep, hm] at h
      simp only [applyLoop, hm, lastVer]
      exact ih cfg2 (ch || b) m.version cfg1 ch1 h
    | none =>
      simp [chainStep, hm] at h

theorem applyLoop_of_break (p : List ConfigMigration) :
    ∀ (m : ConfigMigration) (s : List ConfigMigration) cfg ch cur cfg1 ch1 cfg2,
      chainStep p (cfg, ch) = some (cfg1, ch1) →
      m.apply cfg1 = (cfg2, none) →
      applyLoop (p ++ m :: s) cfg ch cur = (cfg2, ch1, lastVer p cur) := by
  induction p with
  | nil =>
    intro m s cfg ch cur cfg1 ch1 cfg2 hc hm
    simp only [chainStep, Option.some.injEq, Prod.mk.injEq] at hc
    obtain ⟨h1, h2⟩ := hc
    subst h1
    subst h2
    simp [applyLoop, hm, lastVer]
  | cons m0 rest ih =>
    intro m s cfg ch cur cfg1 ch1 cfg2 hc hm
    rcases hm0 : m0.apply cfg with ⟨cfg3, ob⟩
    cases ob with
    | some b =>
      simp only [chainStep, hm0] at hc
      simp only [List.cons_append, applyLoop, hm0, lastVer]
      exact ih m s cfg3 (ch || b) m0.version cfg1 ch1 cfg2 hc hm
    | none =>
      simp [chainStep, hm0] at hc

theorem chainStep_or_break (l : List ConfigMigration) :
    ∀ cfg ch,
      (∃ cfg1 ch1, chainStep l (cfg, ch) = some (cfg1, ch1)) ∨
      (∃ p m s cfg1 ch1 cfg2, l = p ++ m :: s ∧
        chainStep p (cfg, ch) = some (cfg1, ch1) ∧
        m.apply cfg1 = (cfg2, none)) := by
  induction l with
  | nil =>
    intro cfg ch
    exact Or.inl ⟨cfg, ch, rfl⟩
  | cons m rest ih =>
    intro cfg ch
    rcases hm : m.apply cfg with ⟨cfg2, ob⟩
    cases ob with
    | some b =>
      rcases ih cfg2 (ch || b) with ⟨cfg1, ch1, h⟩ | ⟨p, m1, s, cfg1, ch1, cfg3, hl, hc, hraise⟩
      · exact Or.inl ⟨cfg1, ch1, by simp [chainStep, hm, h]⟩
      · refine Or.inr ⟨m :: p, m1, s, cfg1, ch1, cfg3, by simp [hl], ?_, hraise⟩
        simp [chainStep, hm, hc]
    | none =>
      exact Or.inr ⟨[], m, rest, cfg, ch, cfg2, rfl, rfl, hm⟩

/-! ## Tail-buffer lemmas -/

theorem tailPush_length_le_budget (maxChars : Nat) (buf chunk : List Char) :
    (tailPush maxChars buf chunk).length ≤ maxChars := by
  unfold tailPush
  dsimp only
  split
  · rw [List.length_drop]
    omega
  · rename_i h
    omega

theorem tailPush_suffix (maxChars : Nat) (buf chunk : List Char) :
    (tailPush maxChars buf chunk).IsSuffix (buf ++ chunk) := by
  unfold tailPush
  dsimp only
  split
  · exact List.drop_suffix _ _
  · exact List.suffix_refl _

theorem tailRun_suffix_aux (maxChars : Nat) :
    ∀ (chunks : List (List Char)) (buf acc : List Char),
      buf.IsSuffix acc →
      (chunks.foldl (tailPush maxChars) buf).IsSuffix (acc ++ chunks.flatten) := by
  intro chunks
  induction chunks with
  | nil =>
    intro buf acc h
    simpa using h
  | cons c rest ih =>
    intro buf acc h
    have h1 : (buf ++ c).IsSuffix (acc ++ c) := by
      obtain ⟨t, ht⟩ := h
      exact ⟨t, by rw [← List.append_assoc, ht]⟩
    have h2 : (tailPush maxChars buf c).IsSuffix (acc ++ c) :=
      (tailPush_suffix maxChars buf c).trans h1
    have h3 := ih (tailPush maxChars buf c) (acc ++ c) h2
    simpa [List.append_assoc] using h3

theorem tailRun_length_aux (maxChars : Nat) :
    ∀ (chunks : List (List Char)) (buf : List Char),
      buf.length ≤ maxChars →
      (chunks.foldl (tailPush maxChars) buf).length ≤ maxChars := by
  intro chunks
  induction chunks with
  | nil =>
    intro buf h
    exact h
  | cons c rest ih =>
    intro buf _
    exact ih (tailPush maxChars buf c) (tailPush_length_le_budget maxChars buf c)

/-- C6: over any sequence of pushes into a tail buffer of budget
`maxChars`, the stored text never exceeds the budget, and `read()` is a
suffix of the concatenation of everything pushed. -/
theorem tailBuffer_budget_and_suffix (maxChars : Nat) (chunks : List (List Char)) :
    (tailRead (tailRun maxChars chunks)).length ≤ maxChars ∧
    (tailRead (tailRun maxChars chunks)).IsSuffix chunks.flatten := by
  constructor
  · exact tailRun_length_aux maxChars chunks [] (by simp)
  · have h := tailRun_suffix_aux maxChars chunks [] [] (List.suffix_refl [])
    simpa using h

/-- C9: if the preferred port binds, `pickPort` returns it; otherwise it
returns the OS-assigned port from the port-0 probe; and whenever a port is
returned, the last probe action before returning closed the probe
listener. -/
theorem pickPort_preferred_or_fallback (preferred : Nat) (env : PortEnv) :
    (env.preferredFree = true → (pickPort preferred env).1 = .ok preferred) ∧
    (env.preferredFree = false → ∀ p, env.port0Result = some (some p) →
      (pickPort preferred env).1 = .ok p) ∧
    (∀ p, (pickPort preferred env).1 = .ok p →
      (pickPort preferred env).2.getLast? = some .closeListener) := by
  obtain ⟨free, r0⟩ := env
  refine ⟨?_, ?_, ?_⟩
  · intro h
    subst h
    rfl
  · intro h p hp
    subst h
    subst hp
    rfl
  · intro p hp
    cases free
    · cases r0 with
      | none => simp [pickPort] at hp
      | some a =>
        cases a with
        | none => simp [pickPort] at hp
        | some q => rfl
    · rfl

/-- Witness for C9 at concrete probe outcomes. -/
theorem pickPort_preferred_or_fallback_witness :
    (pickPort 18789 ⟨true, none⟩).1 = .ok 18789 ∧
    (pickPort 18789 ⟨false, some (some 49152)⟩).1 = .ok 49152 ∧
    (pickPort 18789 ⟨false, some (some 49152)⟩).2.getLast? = some .closeListener :=
  ⟨(pickPort_preferred_or_fallback 18789 ⟨true, none⟩).1 rfl,
   (pickPort_preferred_or_fallback 18789 ⟨false, some (some 49152)⟩).2.1 rfl 49152 rfl,
   (pickPort_preferred_or_fallback 18789 ⟨false, some (some 49152)⟩).2.2 49152 rfl⟩

/-- C10: migration v1's `apply` on a document with no `gateway` key takes
the early-return-false path (mode/bind not matching) yet inserts an empty
`gateway` object; and in a run from marker 0 on the empty document,
migration v2 reports a change, so the inserted object reaches the config
file. -/
theorem migration1_false_return_still_mutates :
    migration1Apply [] = ([("gateway", JsonValue.obj [])], false) ∧
    ([("gateway", JsonValue.obj [])] : Obj) ≠ [] ∧
    (runConfigMigrations ⟨true, 0, some []⟩).configWrite =
      some [("gateway", JsonValue.obj []),
            ("browser", JsonValue.obj [("defaultProfile", JsonValue.str "openclaw")])] ∧
    getKey [("gateway", JsonValue.obj []),
            ("browser", JsonValue.obj [("defaultProfile", JsonValue.str "openclaw")])]
      "gateway" = some (JsonValue.obj []) :=
  ⟨rfl, by simp, rfl, rfl⟩

/-- C8 evaluation at the failing input: a live child that ignores SIGTERM.
`child.killed` is true as soon as the SIGTERM send succeeded, so the
handler never sends SIGKILL even though the child is still alive at the end
of the 1.5s grace period; terminating with no child is a no-op. -/
theorem beforeQuit_no_sigkill_for_surviving_child :
    beforeQuitHandler (some ⟨true, true⟩) = ⟨["SIGTERM"], true⟩ ∧
    ("SIGKILL" ∈ (beforeQuitHandler (some ⟨true, true⟩)).signals) = False ∧
    (beforeQuitHandler (some ⟨true, true⟩)).aliveAfter = true ∧
    beforeQuitHandler none = ⟨[], false⟩ :=
  ⟨rfl, by simp [beforeQuitHandler], rfl, rfl⟩

/-! ## Startup failure-channel claims -/

/-- C3 counterexample: when `pickPort` rejects, the `whenReady` handler's
promise rejects with that error — the error escapes the supervisor
boundary and no state, in particular no `Failed` state, is broadcast. -/
theorem whenReady_portFailure_escapes :
    whenReadyHandler portFailEnv = Except.error PickError.listenRefused ∧
    ¬ ∃ l, whenReadyHandler portFailEnv = Except.ok l := by
  constructor
  · rfl
  · rintro ⟨l, h⟩
    rw [show whenReadyHandler portFailEnv = Except.error PickError.listenRefused from rfl] at h
    exact Except.noConfusion h

/-- C3 amended: only the readiness-timeout failure is converted into a
`Failed` broadcast (after a `Starting` broadcast); a `pickPort` rejection
escapes the `whenReady` handler unhandled, with nothing broadcast. -/
theorem whenReady_failure_channel (env : StartupEnv) :
    (∀ e, env.pickPortOutcome = Except.error e →
      whenReadyHandler env = Except.error e) ∧
    (∀ port, env.pickPortOutcome = Except.ok port →
      env.portOpenedInTime = false →
      whenReadyHandler env = Except.ok
        [GatewayStateK.starting port env.logsDir
           (resolveToken env.configFile env.entropy),
         GatewayStateK.failed port env.logsDir
           (failureDetails env.openclawDir env.nodeBin
             env.stderrTailAtTimeout env.logsDir)
           (resolveToken env.configFile env.entropy)]) ∧
    (∀ port, env.pickPortOutcome = Except.ok port →
      env.portOpenedInTime = true →
      whenReadyHandler env = Except.ok
        [GatewayStateK.starting port env.logsDir
           (resolveToken env.configFile env.entropy),
         GatewayStateK.ready port env.logsDir
           ("http://127.0.0.1:" ++ toString port ++ "/")
           (resolveToken env.configFile env.entropy)]) := by
  refine ⟨?_, ?_, ?_⟩
  · intro e he
    simp [whenReadyHandler, he]
  · intro port hp ht
    simp [whenReadyHandler, hp, ht]
  · intro port hp ht
    simp [whenReadyHandler, hp, ht]

/-- Witness for the amended C3 statement at concrete environments. -/
theorem whenReady_failure_channel_witness :
    whenReadyHandler portFailEnv = Except.error PickError.listenRefused ∧
    whenReadyHandler ⟨.ok 18789, .absent, [0], "/logs", "/oc", "/node", false, "boom"⟩ =
      Except.ok
        [GatewayStateK.starting 18789 "/logs" (resolveToken .absent [0]),
         GatewayStateK.failed 18789 "/logs"
           (failureDetails "/oc" "/node" "boom" "/logs") (resolveToken .absent [0])] :=
  ⟨(whenReady_failure_channel portFailEnv).1 PickError.listenRefused rfl,
   (whenReady_failure_channel
     ⟨.ok 18789, .absent, [0], "/logs", "/oc", "/node", false, "boom"⟩).2.1 18789 rfl rfl⟩

/-! ## Token provisioning claim -/

/-- C7: a readable non-blank `gateway.auth.token` is reused (trimmed); when
none is readable, the minted base64url encoding of the 24 random bytes is
used; `ensureGatewayConfigFile` writes the minimal config exactly when no
config file exists, and that minimal config carries the token at
`gateway.auth.token`. -/
theorem tokenProvisioning_reuse_before_mint (file : ConfigFileState)
    (entropy : List Nat) (tok : String) :
    (∀ s, readGatewayTokenFromConfig file = some s →
      resolveToken file entropy = s) ∧
    (readGatewayTokenFromConfig file = none →
      resolveToken file entropy = String.mk (base64urlEncode entropy)) ∧
    (∀ (o : Obj) (s : String),
      ((jsGet (JsonValue.obj o) "gateway").bind fun g =>
        (jsGet g "auth").bind fun a => jsGet a "token") = some (JsonValue.str s) →
      0 < (jsTrim s).length →
      resolveToken (.parsed (JsonValue.obj o)) entropy = jsTrim s) ∧
    (ensureGatewayConfigFile .absent tok = .parsed (minimalConfig tok)) ∧
    (file ≠ .absent → ensureGatewayConfigFile file tok = file) ∧
    (((jsGet (minimalConfig tok) "gateway").bind fun g =>
        (jsGet g "auth").bind fun a => jsGet a "token") = some (JsonValue.str tok)) := by
  refine ⟨?_, ?_, ?_, rfl, ?_, rfl⟩
  · intro s h
    simp [resolveToken, h]
  · intro h
    simp [resolveToken, h]
  · intro o s hchain hlen
    simp [resolveToken, readGatewayTokenFromConfig, hchain, hlen]
  · intro h
    cases file with
    | absent => exact absurd rfl h
    | unparsable => rfl
    | parsed v => rfl

/-- Witness for C7: a stored token `" tk "` is reused trimmed; an empty
config file state mints from the entropy bytes; an existing unparsable file
is left untouched. -/
theorem tokenProvisioning_reuse_before_mint_witness :
    resolveToken
      (.parsed (JsonValue.obj
        [("gateway", JsonValue.obj
          [("auth", JsonValue.obj [("token", JsonValue.str " tk ")])])]))
      [1, 2, 3] = "tk" ∧
    resolveToken .absent [1, 2, 3] = String.mk (base64urlEncode [1, 2, 3]) ∧
    ensureGatewayConfigFile .unparsable "t0" = .unparsable :=
  ⟨(tokenProvisioning_reuse_before_mint
      (.parsed (JsonValue.obj
        [("gateway", JsonValue.obj
          [("auth", JsonValue.obj [("token", JsonValue.str " tk ")])])]))
      [1, 2, 3] "t0").2.2.1
      [("gateway", JsonValue.obj
        [("auth", JsonValue.obj [("token", JsonValue.str " tk ")])])]
      " tk " rfl (by decide),
   (tokenProvisioning_reuse_before_mint .absent [1, 2, 3] "t0").2.1 rfl,
   (tokenProvisioning_reuse_before_mint .unparsable [1, 2, 3] "t0").2.2.2.2.1
     (by intro h; exact ConfigFileState.noConfusion h)⟩

/-! ## Runner-unfolding lemmas -/

theorem run_not_exists (migrations : List ConfigMigration) (cur : Int)
    (pc : Option Obj) :
    runConfigMigrationsWith migrations ⟨false, cur, pc⟩ = ⟨none, none⟩ := rfl

theorem run_pending_empty (migrations : List ConfigMigration) (cur : Int)
    (pc : Option Obj) (h : pendingOf migrations cur = []) :
    runConfigMigrationsWith migrations ⟨true, cur, pc⟩ = ⟨none, none⟩ := by
  simp [runConfigMigrationsWith, h]

theorem run_parse_none (migrations : List ConfigMigration) (cur : Int) :
    runConfigMigrationsWith migrations ⟨true, cur, none⟩ = ⟨none, none⟩ := by
  simp [runConfigMigrationsWith]

theorem run_some_eq (migrations : List ConfigMigration) (cur : Int) (cfg : Obj)
    (h : (pendingOf migrations cur).isEmpty = false) :
    runConfigMigrationsWith migrations ⟨true, cur, some cfg⟩ =
      ⟨if (applyLoop (pendingOf migrations cur) cfg false cur).2.1 then
          some (applyLoop (pendingOf migrations cur) cfg false cur).1 else none,
       if cur < (applyLoop (pendingOf migrations cur) cfg false cur).2.2 then
          some (applyLoop (pendingOf migrations cur) cfg false cur).2.2 else none⟩ := by
  unfold runConfigMigrationsWith
  dsimp only
  rw [h]
  rfl

/-! ## Partial-mutation persistence (migration failure) -/

/-- C1 counterexample: with migration v1 completing with a change and
migration v2 mutating the document before raising, the document written
back contains the failing migration's mutation (`"b"`), so it is not the
document holding only the completed migration's changes. -/
theorem runConfigMigrations_persists_partial_mutation :
    (runConfigMigrationsWith [raiseMigA, raiseMigB] raiseEnv).configWrite =
      some [("a", JsonValue.bool true), ("b", JsonValue.bool true)] ∧
    getKey [("a", JsonValue.bool true), ("b", JsonValue.bool true)] "b" =
      some (JsonValue.bool true) ∧
    (runConfigMigrationsWith [raiseMigA, raiseMigB] raiseEnv).configWrite ≠
      some [("a", JsonValue.bool true)] := by
  refine ⟨rfl, rfl, ?_⟩
  intro h
  rw [show (runConfigMigrationsWith [raiseMigA, raiseMigB] raiseEnv).configWrite =
        some [("a", JsonValue.bool true), ("b", JsonValue.bool true)] from rfl] at h
  simp at h

/-- C1 amended: when the pending list splits as completed migrations `p`,
then a migration `m` that raises, the run writes the in-memory document as
mutated through `m`'s partial mutation — and writes it exactly when some
migration in `p` reported a change. -/
theorem runConfigMigrations_break_write (migrations : List ConfigMigration)
    (env : MigrationEnv) (cfg0 cfg1 cfg2 : Obj) (ch1 : Bool)
    (p s : List ConfigMigration) (m : ConfigMigration)
    (hex : env.configExists = true)
    (hparse : env.parsedConfig = some cfg0)
    (hpend : pendingOf migrations env.markerVersion = p ++ m :: s)
    (hchain : chainStep p (cfg0, false) = some (cfg1, ch1))
    (hraise : m.apply cfg1 = (cfg2, none)) :
    (runConfigMigrationsWith migrations env).configWrite =
      (if ch1 then some cfg2 else none) := by
  obtain ⟨ce, cur, pc⟩ := env
  dsimp only at hex hparse hpend
  subst hex
  subst hparse
  have hne : (pendingOf migrations cur).isEmpty = false := by
    rw [hpend]
    cases p <;> rfl
  have hloop := applyLoop_of_break p m s cfg0 false cur cfg1 ch1 cfg2 hchain hraise
  rw [run_some_eq migrations cur cfg0 hne]
  rw [hpend, hloop]

/-- Witness for the amended C1 statement: the concrete raising run writes
the document that includes the failing migration's mutation. -/
theorem runConfigMigrations_break_write_witness :
    (runConfigMigrationsWith [raiseMigA, raiseMigB] raiseEnv).configWrite =
      some [("a", JsonValue.bool true), ("b", JsonValue.bool true)] := by
  simpa using
    runConfigMigrations_break_write [raiseMigA, raiseMigB] raiseEnv []
      [("a", JsonValue.bool true)]
      [("a", JsonValue.bool true), ("b", JsonValue.bool true)]
      true [raiseMigA] [] raiseMigB rfl rfl rfl rfl rfl

/-! ## Marker monotonicity -/

/-- C2: (1) a rewritten marker is strictly above the marker that was read;
(2) a rewritten marker equals the version of the last migration of the
normally-completed pending segment, with the next pending migration (if
any) the one that raised; (3) if the first pending migration raises, the
marker file is not touched. -/
theorem runConfigMigrations_marker_monotonic (migrations : List ConfigMigration)
    (env : MigrationEnv) :
    (∀ v, (runConfigMigrationsWith migrations env).markerWrite = some v →
      env.markerVersion < v) ∧
    (∀ v cfg0, env.parsedConfig = some cfg0 →
      (runConfigMigrationsWith migrations env).markerWrite = some v →
      ∃ p s cfg1 ch1, pendingOf migrations env.markerVersion = p ++ s ∧ p ≠ [] ∧
        chainStep p (cfg0, false) = some (cfg1, ch1) ∧
        v = lastVer p env.markerVersion ∧
        (∀ m s2, s = m :: s2 → (m.apply cfg1).2 = none)) ∧
    (∀ cfg0 m rest, env.parsedConfig = some cfg0 →
      pendingOf migrations env.markerVersion = m :: rest →
      (m.apply cfg0).2 = none →
      (runConfigMigrationsWith migrations env).markerWrite = none) := by
  obtain ⟨ce, cur, pc⟩ := env
  dsimp only
  cases ce with
  | false =>
    refine ⟨?_, ?_, ?_⟩
    · intro v h
      rw [run_not_exists] at h
      exact absurd h (by simp)
    · intro v cfg0 hp h
      rw [run_not_exists] at h
      exact absurd h (by simp)
    · intro cfg0 m rest hp hpend hraise
      rw [run_not_exists]
  | true =>
    cases pc with
    | none =>
      refine ⟨?_, ?_, ?_⟩
      · intro v h
        rw [run_parse_none] at h
        exact absurd h (by simp)
      · intro v cfg0 hp
        exact absurd hp (by simp)
      · intro cfg0 m rest hp
        exact absurd hp (by simp)
    | some cfg =>
      by_cases hpe : (pendingOf migrations cur).isEmpty = true
      · have hnil : pendingOf migrations cur = [] := by
          cases hq : pendingOf migrations cur with
          | nil => rfl
          | cons a as =>
            rw [hq] at hpe
            simp at hpe
        refine ⟨?_, ?_, ?_⟩
        · intro v h
          rw [run_pending_empty _ _ _ hnil] at h
          exact absurd h (by simp)
        · intro v cfg0 hp h
          rw [run_pending_empty _ _ _ hnil] at h
          exact absurd h (by simp)
        · intro cfg0 m rest hp hpend
          rw [hnil] at hpend
          exact absurd hpend (by simp)
      · have hne : (pendingOf migrations cur).isEmpty = false := by
          cases hq : (pendingOf migrations cur).isEmpty
          · rfl
          · exact absurd hq hpe
        rw [run_some_eq migrations cur cfg hne]
        refine ⟨?_, ?_, ?_⟩
        · intro v h
          dsimp only at h
          split at h
          · rename_i hlt
            injection h with h2
            subst h2
            exact hlt
          · exact absurd h (by simp)
        · intro v cfg0 hp h
          injection hp with hp1
          subst hp1
          dsimp only at h
          rcases chainStep_or_break (pendingOf migrations cur) cfg false with
            ⟨cfg1, ch1, hcs⟩ | ⟨p, m, s, cfg1, ch1, cfg2, hsplit, hcs, hraise⟩
          · have hl := applyLoop_of_chainStep (pendingOf migrations cur) cfg false
              cur cfg1 ch1 hcs
            rw [hl] at h
            dsimp only at h
            split at h
            · rename_i hlt
              injection h with h2
              refine ⟨pendingOf migrations cur, [], cfg1, ch1, by simp, ?_, hcs,
                h2.symm, ?_⟩
              · intro hn
                rw [hn] at hne
                simp at hne
              · intro m s2 hcon
                exact absurd hcon (by simp)
            · exact absurd h (by simp)
          · have hl := applyLoop_of_break p m s cfg false cur cfg1 ch1 cfg2 hcs hraise
            rw [hsplit, hl] at h
            dsimp only at h
            split at h
            · rename_i hlt
              injection h with h2
              refine ⟨p, m :: s, cfg1, ch1, hsplit, ?_, hcs, h2.symm, ?_⟩
              · intro hn
                subst hn
                exact lt_irrefl cur hlt
              · intro m2 s2 hcon
                injection hcon with hm hs
                subst hm
                rw [hraise]
            · exact absurd h (by simp)
        · intro cfg0 m rest hp hpend hraise
          injection hp with hp1
          subst hp1
          dsimp only
          rcases hma : m.apply cfg with ⟨cfgX, ob⟩
          rw [hma] at hraise
          dsimp only at hraise
          subst hraise
          have hl : applyLoop (pendingOf migrations cur) cfg false cur =
              (cfgX, false, cur) := by
            rw [hpend]
            simp [applyLoop, hma]
          rw [hl]
          simp

/-- Witness for C2: a completed v1 run rewrites the marker above 0, and a
run whose first pending migration raises leaves the marker untouched. -/
theorem runConfigMigrations_marker_monotonic_witness :
    ((0 : Int) < 1) ∧
    (runConfigMigrationsWith [raiseFirstMig] ⟨true, 0, some []⟩).markerWrite = none :=
  ⟨(runConfigMigrations_marker_monotonic [noopMig1] ⟨true, 0, some []⟩).1 1 rfl,
   (runConfigMigrations_marker_monotonic [raiseFirstMig] ⟨true, 0, some []⟩).2.2
     [] raiseFirstMig [] rfl rfl rfl⟩

/-! ## Already-satisfied migration and idempotence -/

/-- C4: with a single registered migration of version 1 whose `apply`
returns `false` without raising, a run from marker 0 writes no config
document yet rewrites the marker to 1; with the marker at 1 the migration
is never pending again and a further run performs no writes. -/
theorem run_alreadySatisfied_advances_marker (f : Obj → Obj) (d : String)
    (cfg : Obj) (ce : Bool) (pc : Option Obj) :
    runConfigMigrationsWith [⟨1, d, fun c => (f c, some false)⟩]
      ⟨true, 0, some cfg⟩ = ⟨none, some 1⟩ ∧
    pendingOf [⟨1, d, fun c => (f c, some false)⟩] 1 = [] ∧
    runConfigMigrationsWith [⟨1, d, fun c => (f c, some false)⟩]
      ⟨ce, 1, pc⟩ = ⟨none, none⟩ := by
  refine ⟨rfl, rfl, ?_⟩
  cases ce <;> rfl

theorem pendingOf_desktop (v : Int) :
    pendingOf DESKTOP_CONFIG_MIGRATIONS v =
      if v < 1 then [desktopMigration1, desktopMigration2]
      else if v < 2 then [desktopMigration2]
      else [] := by
  by_cases h1 : v < 1
  · have h2 : v < 2 := by omega
    simp [pendingOf, DESKTOP_CONFIG_MIGRATIONS, List.filter_cons,
      desktopMigration1, desktopMigration2, h1, h2]
  · by_cases h2 : v < 2
    · simp [pendingOf, DESKTOP_CONFIG_MIGRATIONS, List.filter_cons,
        desktopMigration1, desktopMigration2, h1, h2]
    · simp [pendingOf, DESKTOP_CONFIG_MIGRATIONS, List.filter_cons,
        desktopMigration1, desktopMigration2, h1, h2]

theorem applyLoop_desktop_both (cfg : Obj) (v : Int) :
    (applyLoop [desktopMigration1, desktopMigration2] cfg false v).2.2 = 2 := rfl

theorem applyLoop_desktop_two (cfg : Obj) (v : Int) :
    (applyLoop [desktopMigration2] cfg false v).2.2 = 2 := rfl

/-- C5: immediately rerunning `runConfigMigrations` on the state a run left
behind performs no writes at all; and the registered pending set is empty
exactly when the marker is at or above version 2, every registered
version. -/
theorem runConfigMigrations_second_run_noop (env : MigrationEnv) :
    runConfigMigrations (threadEnv env (runConfigMigrations env)) = ⟨none, none⟩ ∧
    (∀ v : Int, pendingOf DESKTOP_CONFIG_MIGRATIONS v = [] ↔ 2 ≤ v) := by
  constructor
  · obtain ⟨ce, v, pc⟩ := env
    cases ce with
    | false => rfl
    | true =>
      by_cases h2 : v < 2
      · cases pc with
        | none =>
          rw [show runConfigMigrations ⟨true, v, none⟩ = ⟨none, none⟩ from
            run_parse_none _ v]
          exact run_parse_none _ v
        | some cfg =>
          have hne : (pendingOf DESKTOP_CONFIG_MIGRATIONS v).isEmpty = false := by
            rw [pendingOf_desktop]
            by_cases h1 : v < 1 <;> simp [h1, h2]
          have hup : (applyLoop (pendingOf DESKTOP_CONFIG_MIGRATIONS v)
              cfg false v).2.2 = 2 := by
            rw [pendingOf_desktop]
            by_cases h1 : v < 1
            · rw [if_pos h1]
              exact applyLoop_desktop_both cfg v
            · rw [if_neg h1, if_pos h2]
              exact applyLoop_desktop_two cfg v
          have hmw : (runConfigMigrations ⟨true, v, some cfg⟩).markerWrite =
              some 2 := by
            rw [show runConfigMigrations ⟨true, v, some cfg⟩ =
              runConfigMigrationsWith DESKTOP_CONFIG_MIGRATIONS
                ⟨true, v, some cfg⟩ from rfl]
            rw [run_some_eq DESKTOP_CONFIG_MIGRATIONS v cfg hne]
            dsimp only
            rw [hup]
            simp [h2]
          have hth : threadEnv ⟨true, v, some cfg⟩
              (runConfigMigrations ⟨true, v, some cfg⟩) =
              ⟨true, 2,
               match (runConfigMigrations ⟨true, v, some cfg⟩).configWrite with
               | some d => some d
               | none => some cfg⟩ := by
            simp [threadEnv, hmw]
          rw [hth]
          have hnil2 : pendingOf DESKTOP_CONFIG_MIGRATIONS 2 = [] := by
            rw [pendingOf_desktop]
            norm_num
          exact run_pending_empty _ _ _ hnil2
      · have hnil : pendingOf DESKTOP_CONFIG_MIGRATIONS v = [] := by
          rw [pendingOf_desktop, if_neg (by omega), if_neg (by omega)]
        have hr1 : runConfigMigrations ⟨true, v, pc⟩ = ⟨none, none⟩ := by
          cases pc with
          | none => exact run_parse_none _ v
          | some cfg => exact run_pending_empty _ _ _ hnil
        rw [hr1]
        rw [show threadEnv ⟨true, v, pc⟩ ⟨none, none⟩ = ⟨true, v, pc⟩ from rfl]
        exact hr1
  · intro v
    rw [pendingOf_desktop]
    by_cases h1 : v < 1
    · rw [if_pos h1]
      constructor
      · intro h
        exact absurd h (by simp)
      · intro h
        exact absurd h (by omega)
    · by_cases h2 : v < 2
      · rw [if_neg h1, if_pos h2]
        constructor
        · intro h
          exact absurd h (by simp)
        · intro h
          exact absurd h (by omega)
      · rw [if_neg h1, if_neg h2]
        constructor
        · intro _
          omega
        · intro _
          rfl
